import Mathlib

/-!
Shallow embedding of `aimakerspace/text_utils.py`: the `TextFileLoader` and
`PDFFileLoader` document loaders and the `CharacterTextSplitter`.
Strings are modelled as `List Char`; Python slices, `range`, `str.strip` and
`str.endswith` are given explicit models below.
-/

/-- The whitespace characters removed by Python `str.strip()` (ASCII subset). -/
def isPySpace (c : Char) : Bool :=
  c == ' ' || c == '\t' || c == '\n' || c == '\r' || c == Char.ofNat 11 || c == Char.ofNat 12

/-- Python `str.strip()`: drop leading and trailing whitespace. -/
def pyStrip (s : List Char) : List Char :=
  ((s.dropWhile isPySpace).reverse.dropWhile isPySpace).reverse

/-- Python `range(0, stop, step)` for a positive `step`: the multiples of
`step` below `stop`. -/
def pyRange (stop step : Nat) : List Nat :=
  (List.range ((stop + step - 1) / step)).map (fun j => j * step)

/-- Python slice `text[i : i + n]` for nonnegative bounds: take `n`
characters starting at index `i`, clamped to the end of the string. -/
def pySlice (text : List Char) (i n : Nat) : List Char :=
  (text.drop i).take n

/-- `CharacterTextSplitter`: chunking configuration.  Fields are integers, as
in the Python constructor. -/
structure CharacterTextSplitter where
  chunk_size : Int
  chunk_overlap : Int

/-- `CharacterTextSplitter.__init__`: the `assert chunk_size > chunk_overlap`
either lets construction succeed or raises. -/
def CharacterTextSplitter.init (chunk_size chunk_overlap : Int) :
    Except String CharacterTextSplitter :=
  if chunk_size > chunk_overlap then
    Except.ok ⟨chunk_size, chunk_overlap⟩
  else
    Except.error "Chunk size must be greater than chunk overlap"

/-- `CharacterTextSplitter.split`: for `i in range(0, len(text), chunk_size -
chunk_overlap)` append `text[i : i + chunk_size]`. -/
def CharacterTextSplitter.split (chunk_size chunk_overlap : Nat) (text : List Char) :
    List (List Char) :=
  (pyRange text.length (chunk_size - chunk_overlap)).map (fun i => pySlice text i chunk_size)

/-- `CharacterTextSplitter.split_texts`: extend an accumulator with the chunks
of each text in order. -/
def CharacterTextSplitter.split_texts (chunk_size chunk_overlap : Nat)
    (texts : List (List Char)) : List (List Char) :=
  texts.foldl (fun chunks text => chunks ++ CharacterTextSplitter.split chunk_size chunk_overlap text) []

/-- A regular file as the loader sees it: its name, the text obtained by
reading it as text, and the per-page texts obtained by parsing it as a PDF. -/
structure SimFile where
  name : List Char
  textContent : List Char
  pdfPages : List (List Char)

/-- What `os.path.isdir` / `os.path.isfile` resolve a path to: a directory
(its recursive walk yielding a list of regular files), a single regular file,
or nothing. -/
inductive PathInfo where
  | dir (files : List SimFile)
  | file (f : SimFile)
  | missing

def txtExt : List Char := ['.', 't', 'x', 't']

def pdfExt : List Char := ['.', 'p', 'd', 'f']

/-- `TextFileLoader.load_pdf_file`: concatenate every page's extracted text
followed by a newline; append the result to `documents` only when it is
non-empty after stripping. -/
def TextFileLoader.load_pdf_file (pages : List (List Char))
    (documents : List (List Char)) : List (List Char) :=
  let text_content := pages.foldl (fun acc page => acc ++ page ++ ['\n']) []
  if pyStrip text_content ≠ [] then documents ++ [text_content] else documents

/-- `TextFileLoader.load_directory`: walk the files; `.txt` files are read and
appended, `.pdf` files are loaded through a fresh loader whose documents are
appended, anything else is skipped. -/
def TextFileLoader.load_directory (files : List SimFile)
    (documents : List (List Char)) : List (List Char) :=
  files.foldl
    (fun docs f =>
      if List.isSuffixOf txtExt f.name then docs ++ [f.textContent]
      else if List.isSuffixOf pdfExt f.name then
        docs ++ TextFileLoader.load_pdf_file f.pdfPages []
      else docs)
    documents

/-- `TextFileLoader.load`: dispatch on what the path resolves to; single files
must end in `.txt` or `.pdf`, otherwise a `ValueError` is raised. -/
def TextFileLoader.load (p : PathInfo) (documents : List (List Char)) :
    Except String (List (List Char)) :=
  match p with
  | PathInfo.dir files => Except.ok (TextFileLoader.load_directory files documents)
  | PathInfo.file f =>
      if List.isSuffixOf txtExt f.name then Except.ok (documents ++ [f.textContent])
      else if List.isSuffixOf pdfExt f.name then
        Except.ok (TextFileLoader.load_pdf_file f.pdfPages documents)
      else Except.error "Provided file is neither a .txt nor .pdf file."
  | PathInfo.missing =>
      Except.error "Provided path is neither a valid directory nor a supported file."

/-- `TextFileLoader.load_documents`: run `load` on the accumulated documents
and return the updated document list. -/
def TextFileLoader.load_documents (p : PathInfo) (documents : List (List Char)) :
    Except String (List (List Char)) :=
  TextFileLoader.load p documents

/-- The PDF info dictionary: each attribute is present or absent, as read by
`doc_info.get`. -/
structure DocInfo where
  title : Option (List Char)
  author : Option (List Char)
  subject : Option (List Char)
  creator : Option (List Char)
  producer : Option (List Char)
  creation_date : Option (List Char)
  modification_date : Option (List Char)

/-- The per-page metadata record built by `PDFFileLoader.load_pdf_with_metadata`. -/
structure PageMetadata where
  source_file : List Char
  page_number : Nat
  total_pages : Nat
  document_title : List Char
  document_author : List Char
  document_subject : List Char
  document_creator : List Char
  document_producer : List Char
  creation_date : List Char
  modification_date : List Char

def unknownStr : List Char := ['U', 'n', 'k', 'n', 'o', 'w', 'n']

/-- The metadata dictionary built for page `page_num` (0-based, stored 1-based),
with the `doc_info.get` defaults of the source. -/
def mkPageMetadata (path : List Char) (page_num total : Nat) (info : DocInfo) :
    PageMetadata :=
  ⟨path, page_num + 1, total,
   info.title.getD unknownStr, info.author.getD unknownStr,
   info.subject.getD [], info.creator.getD [], info.producer.getD [],
   info.creation_date.getD [], info.modification_date.getD []⟩

/-- `PDFFileLoader.load_pdf_with_metadata`: for each page index, if the page's
extracted text is non-empty after stripping, append the text to `documents`
and its metadata record to `metadata`; otherwise skip both. -/
def PDFFileLoader.load_pdf_with_metadata (path : List Char) (info : DocInfo)
    (pages : List (List Char)) : List (List Char) × List PageMetadata :=
  (List.range pages.length).foldl
    (fun acc page_num =>
      let text_content := pages.getD page_num []
      if pyStrip text_content ≠ [] then
        (acc.1 ++ [text_content], acc.2 ++ [mkPageMetadata path page_num pages.length info])
      else acc)
    ([], [])

/-- Modelled from the spec: the ceiling division appearing in the spec's
chunk-count formula. -/
def specCeilDiv (a b : Nat) : Nat := (a + b - 1) / b

/-- Modelled from the spec: the first chunk concatenated with every subsequent
chunk stripped of its first `k` characters. -/
def joinWithOverlapRemoved (k : Nat) : List (List Char) → List Char
  | [] => []
  | c :: rest => c ++ (rest.map (fun d => d.drop k)).flatten

/-- The page indices retained by the metadata-aware loader: those whose
extracted text is non-empty after stripping. -/
def retainedPages (pages : List (List Char)) : List Nat :=
  (List.range pages.length).filter (fun p => decide (pyStrip (pages.getD p []) ≠ []))

def exStr : List Char := ['a', 'b', 'c', 'd', 'e', 'f', 'g', 'h', 'i', 'j']

/-! ## Theorems -/

/-- C4: `split("abcdefghij", chunk_size=4, chunk_overlap=1)` returns exactly
`["abcd", "defg", "ghij", "j"]`, and the loop visits start offsets 0, 3, 6, 9. -/
theorem C4_example_split :
    CharacterTextSplitter.split 4 1 exStr =
      [['a', 'b', 'c', 'd'], ['d', 'e', 'f', 'g'], ['g', 'h', 'i', 'j'], ['j']] ∧
    pyRange exStr.length (4 - 1) = [0, 3, 6, 9] := by
  exact ⟨rfl, rfl⟩

/-- C1 counterexample: on the ten-character string with `chunk_size = 4`,
`chunk_overlap = 1`, the code returns 4 chunks while the claimed formula
`ceil(max(len(s) - k, 0) / (n - k))` gives 3. -/
theorem C1_count_counterexample :
    ¬ ((CharacterTextSplitter.split 4 1 exStr).length =
        specCeilDiv (max (exStr.length - 1) 0) (4 - 1)) := by
  decide

/-- C1 amended: for `k < n`, the number of chunks is
`ceil(len(s) / (n - k))`; in particular an empty string yields 0 chunks. -/
theorem C1_chunk_count (n k : Nat) (h : k < n) (s : List Char) :
    (CharacterTextSplitter.split n k s).length = specCeilDiv s.length (n - k) := by
  simp [CharacterTextSplitter.split, pyRange, specCeilDiv]

theorem C1_chunk_count_witness :
    1 < 4 ∧ (CharacterTextSplitter.split 4 1 exStr).length = specCeilDiv exStr.length (4 - 1) :=
  ⟨by decide, C1_chunk_count 4 1 (by decide) exStr⟩

/-- C2 counterexample: `"abcd"` is non-empty with length `≤ chunk_size = 4`,
yet with `chunk_overlap = 1` the code returns two chunks, not one. -/
theorem C2_single_chunk_counterexample :
    (['a', 'b', 'c', 'd'] : List Char) ≠ [] ∧
    (['a', 'b', 'c', 'd'] : List Char).length ≤ 4 ∧
    CharacterTextSplitter.split 4 1 ['a', 'b', 'c', 'd'] ≠ [['a', 'b', 'c', 'd']] := by
  decide

/-- C2 amended: for `k < n` and non-empty `s` with `len(s) ≤ n - k`,
`split` returns exactly one chunk, and that chunk is `s`. -/
theorem C2_single_chunk (n k : Nat) (h : k < n) (s : List Char)
    (hne : s ≠ []) (hlen : s.length ≤ n - k) :
    CharacterTextSplitter.split n k s = [s] := by
  have hL : 0 < s.length := List.length_pos.mpr hne
  have hdiv : (s.length + (n - k) - 1) / (n - k) = 1 :=
    Nat.div_eq_of_lt_le (by omega) (by omega)
  simp [CharacterTextSplitter.split, pyRange, pySlice, hdiv, List.range_succ,
    List.take_of_length_le (show s.length ≤ n by omega)]

/-- C6: construction succeeds exactly when `chunk_size > chunk_overlap`, and
otherwise fails with the configuration error. -/
theorem C6_ctor_validation (cs co : Int) :
    ((∃ sp : CharacterTextSplitter, CharacterTextSplitter.init cs co = Except.ok sp) ↔ cs > co) ∧
    (co ≥ cs →
      CharacterTextSplitter.init cs co =
        Except.error "Chunk size must be greater than chunk overlap") := by
  constructor
  · constructor
    · intro hok
      by_contra hlt
      rcases hok with ⟨sp, hsp⟩
      simp [CharacterTextSplitter.init, hlt] at hsp
    · intro hgt
      exact ⟨⟨cs, co⟩, by simp [CharacterTextSplitter.init, hgt]⟩
  · intro hge
    have : ¬ cs > co := by omega
    simp [CharacterTextSplitter.init, this]

theorem C6_ctor_validation_witness :
    (5 : Int) ≥ 2 ∧
    CharacterTextSplitter.init 2 5 =
      Except.error "Chunk size must be greater than chunk overlap" :=
  ⟨by decide, (C6_ctor_validation 2 5).2 (by decide)⟩

theorem C2_single_chunk_witness :
    1 < 4 ∧ (['a', 'b'] : List Char) ≠ [] ∧ (['a', 'b'] : List Char).length ≤ 4 - 1 ∧
    CharacterTextSplitter.split 4 1 ['a', 'b'] = [['a', 'b']] :=
  ⟨by decide, by decide, by decide,
    C2_single_chunk 4 1 (by decide) ['a', 'b'] (by decide) (by decide)⟩

lemma split_nil (n k : Nat) (h : k < n) : CharacterTextSplitter.split n k [] = [] := by
  simp [CharacterTextSplitter.split, pyRange,
    Nat.div_eq_of_lt (show n - k - 1 < n - k by omega)]

lemma pyRange_pos (stop step : Nat) (hstep : 0 < step) (hpos : 0 < stop) :
    pyRange stop step = 0 :: (pyRange (stop - step) step).map (fun i => i + step) := by
  unfold pyRange
  have h1 : stop + step - 1 = (stop - 1) + step := by omega
  have hm : (stop - step + step - 1) / step = (stop - 1) / step := by
    rcases Nat.le_total stop step with hle | hge
    · have e1 : stop - step = 0 := by omega
      rw [e1, Nat.div_eq_of_lt (by omega), Nat.div_eq_of_lt (by omega)]
    · congr 1
      omega
  rw [h1, Nat.add_div_right _ hstep, hm, List.range_succ_eq_map]
  simp [List.map_map, Function.comp, Nat.succ_mul]

lemma split_cons (n k : Nat) (h : k < n) (s : List Char) (hs : s ≠ []) :
    CharacterTextSplitter.split n k s =
      s.take n :: CharacterTextSplitter.split n k (s.drop (n - k)) := by
  have hstep : 0 < n - k := by omega
  have hL : 0 < s.length := List.length_pos.mpr hs
  unfold CharacterTextSplitter.split
  rw [pyRange_pos _ _ hstep hL, List.length_drop]
  have e : (fun i => pySlice (s.drop (n - k)) i n) = (fun i => pySlice s (i + (n - k)) n) := by
    funext i
    simp only [pySlice, List.drop_drop]
    rw [Nat.add_comm]
  rw [e]
  simp [pySlice, List.map_map, Function.comp]

lemma split_tail_join (n k : Nat) (h : k < n) :
    ∀ (fuel : Nat) (s : List Char), s.length ≤ fuel →
      ((CharacterTextSplitter.split n k s).map (fun c => c.drop k)).flatten = s.drop k := by
  intro fuel
  induction fuel with
  | zero =>
      intro s hs
      have hnil : s = [] := List.eq_nil_of_length_eq_zero (by omega)
      subst hnil
      simp [split_nil n k h]
  | succ fuel ih =>
      intro s hs
      by_cases hsnil : s = []
      · subst hsnil
        simp [split_nil n k h]
      · have hL : 0 < s.length := List.length_pos.mpr hsnil
        rw [split_cons n k h s hsnil, List.map_cons, List.flatten_cons,
          ih (s.drop (n - k)) (by rw [List.length_drop]; omega)]
        rw [List.drop_drop]
        have e1 : n - k + k = n := by omega
        rw [e1, List.drop_take]
        have e2 : s.drop n = (s.drop k).drop (n - k) := by
          rw [List.drop_drop]
          congr 1
          omega
        rw [e2, List.take_append_drop]

/-- C3: the `i`-th chunk starts at offset `i * (chunk_size - chunk_overlap)`,
and the first chunk followed by every later chunk minus its first
`chunk_overlap` characters reconstructs the input exactly. -/
theorem C3_offsets_and_reconstruction (n k : Nat) (h : k < n) (s : List Char) :
    (∀ i (hi : i < (CharacterTextSplitter.split n k s).length),
        (CharacterTextSplitter.split n k s).get ⟨i, hi⟩ = pySlice s (i * (n - k)) n) ∧
    joinWithOverlapRemoved k (CharacterTextSplitter.split n k s) = s := by
  constructor
  · intro i hi
    simp [CharacterTextSplitter.split, pyRange, List.get_eq_getElem]
  · by_cases hsnil : s = []
    · subst hsnil
      simp [split_nil n k h, joinWithOverlapRemoved]
    · rw [split_cons n k h s hsnil]
      simp only [joinWithOverlapRemoved]
      rw [split_tail_join n k h (s.drop (n - k)).length _ le_rfl, List.drop_drop]
      have e : n - k + k = n := by omega
      rw [e, List.take_append_drop]

theorem C3_offsets_witness :
    1 < 4 ∧
    ((∀ i (hi : i < (CharacterTextSplitter.split 4 1 exStr).length),
        (CharacterTextSplitter.split 4 1 exStr).get ⟨i, hi⟩ = pySlice exStr (i * (4 - 1)) 4) ∧
      joinWithOverlapRemoved 1 (CharacterTextSplitter.split 4 1 exStr) = exStr) :=
  ⟨by decide, C3_offsets_and_reconstruction 4 1 (by decide) exStr⟩

lemma split_texts_foldl (n k : Nat) :
    ∀ (texts : List (List Char)) (acc : List (List Char)),
      texts.foldl (fun chunks text => chunks ++ CharacterTextSplitter.split n k text) acc =
        acc ++ (texts.map (CharacterTextSplitter.split n k)).flatten := by
  intro texts
  induction texts with
  | nil =>
      intro acc
      simp
  | cons t ts ih =>
      intro acc
      simp [ih, List.append_assoc]

/-- C5: `split_texts` is the order-preserving concatenation of the per-text
chunk lists, in particular on a two-element list. -/
theorem C5_split_texts_concat (n k : Nat) (h : k < n) (texts : List (List Char)) :
    CharacterTextSplitter.split_texts n k texts =
      (texts.map (CharacterTextSplitter.split n k)).flatten ∧
    ∀ a b : List Char,
      CharacterTextSplitter.split_texts n k [a, b] =
        CharacterTextSplitter.split n k a ++ CharacterTextSplitter.split n k b := by
  refine ⟨?_, fun a b => ?_⟩ <;>
    simp [CharacterTextSplitter.split_texts, split_texts_foldl]

theorem C5_split_texts_witness :
    1 < 4 ∧
    (CharacterTextSplitter.split_texts 4 1 [['a'], ['b', 'c']] =
        ([['a'], ['b', 'c']].map (CharacterTextSplitter.split 4 1)).flatten ∧
      ∀ a b : List Char,
        CharacterTextSplitter.split_texts 4 1 [a, b] =
          CharacterTextSplitter.split 4 1 a ++ CharacterTextSplitter.split 4 1 b) :=
  ⟨by decide, C5_split_texts_concat 4 1 (by decide) [['a'], ['b', 'c']]⟩

lemma foldl_lockstep (cond : Nat → Prop) [DecidablePred cond]
    (f : Nat → List Char) (g : Nat → PageMetadata) :
    ∀ (l : List Nat) (acc : List (List Char) × List PageMetadata),
      l.foldl (fun acc p => if cond p then (acc.1 ++ [f p], acc.2 ++ [g p]) else acc) acc =
        (acc.1 ++ ((l.filter fun p => decide (cond p)).map f),
         acc.2 ++ ((l.filter fun p => decide (cond p)).map g)) := by
  intro l
  induction l with
  | nil =>
      intro acc
      simp
  | cons p ps ih =>
      intro acc
      by_cases hp : cond p
      · simp [hp, ih, List.append_assoc]
      · simp [hp, ih]

/-- C7: the metadata-aware loader returns document and metadata lists of equal
length, both obtained in lockstep from exactly the pages whose stripped text
is non-empty, the metadata record at index `i` being the one built for the
page whose text is the document at index `i`. -/
theorem C7_metadata_alignment (path : List Char) (info : DocInfo)
    (pages : List (List Char)) :
    (PDFFileLoader.load_pdf_with_metadata path info pages).1.length =
      (PDFFileLoader.load_pdf_with_metadata path info pages).2.length ∧
    (PDFFileLoader.load_pdf_with_metadata path info pages).1 =
      (retainedPages pages).map (fun p => pages.getD p []) ∧
    (PDFFileLoader.load_pdf_with_metadata path info pages).2 =
      (retainedPages pages).map (fun p => mkPageMetadata path p pages.length info) := by
  have heq : PDFFileLoader.load_pdf_with_metadata path info pages =
      ((retainedPages pages).map (fun p => pages.getD p []),
       (retainedPages pages).map (fun p => mkPageMetadata path p pages.length info)) := by
    have key := foldl_lockstep (fun p => pyStrip (pages.getD p []) ≠ [])
      (fun p => pages.getD p []) (fun p => mkPageMetadata path p pages.length info)
      (List.range pages.length) ([], [])
    exact key.trans (by simp [retainedPages])
  rw [heq]
  simp

/-- C8: `load_pdf_file` appends no document when the page-concatenated text
strips to empty, and appends exactly that one concatenated text otherwise. -/
theorem C8_pdf_empty_skip (pages docs : List (List Char)) :
    (pyStrip (pages.foldl (fun acc page => acc ++ page ++ ['\n']) []) = [] →
        TextFileLoader.load_pdf_file pages docs = docs) ∧
    (pyStrip (pages.foldl (fun acc page => acc ++ page ++ ['\n']) []) ≠ [] →
        TextFileLoader.load_pdf_file pages docs =
          docs ++ [pages.foldl (fun acc page => acc ++ page ++ ['\n']) []]) := by
  constructor
  · intro hempty
    show (if pyStrip (pages.foldl (fun acc page => acc ++ page ++ ['\n']) []) ≠ [] then
        docs ++ [pages.foldl (fun acc page => acc ++ page ++ ['\n']) []] else docs) = docs
    rw [if_neg (by simpa using hempty)]
  · intro hne
    show (if pyStrip (pages.foldl (fun acc page => acc ++ page ++ ['\n']) []) ≠ [] then
        docs ++ [pages.foldl (fun acc page => acc ++ page ++ ['\n']) []] else docs) = _
    rw [if_pos hne]

theorem C8_pdf_empty_skip_witness :
    pyStrip ([['h', 'i']].foldl (fun acc page => acc ++ page ++ ['\n']) []) ≠ [] ∧
    TextFileLoader.load_pdf_file [['h', 'i']] [] = [['h', 'i', '\n']] :=
  ⟨by decide, (C8_pdf_empty_skip [['h', 'i']] []).2 (by decide)⟩

/-- C9: a single file whose name ends in neither `.txt` nor `.pdf` makes
`load` fail with the `ValueError` message and no documents, while in a
directory load the same file is skipped silently: the result is the same as
if the file were absent, and the load still succeeds. -/
theorem C9_unsupported_extension_asymmetry (f : SimFile)
    (h1 : List.isSuffixOf txtExt f.name = false)
    (h2 : List.isSuffixOf pdfExt f.name = false) :
    (∀ docs, TextFileLoader.load (PathInfo.file f) docs =
        Except.error "Provided file is neither a .txt nor .pdf file.") ∧
    (∀ files1 files2 docs,
        TextFileLoader.load (PathInfo.dir (files1 ++ f :: files2)) docs =
          TextFileLoader.load (PathInfo.dir (files1 ++ files2)) docs) := by
  constructor
  · intro docs
    simp [TextFileLoader.load, h1, h2]
  · intro files1 files2 docs
    have h1' : ¬ (txtExt <:+ f.name) := fun hs => by
      rw [← List.isSuffixOf_iff_suffix] at hs
      simp [hs] at h1
    have h2' : ¬ (pdfExt <:+ f.name) := fun hs => by
      rw [← List.isSuffixOf_iff_suffix] at hs
      simp [hs] at h2
    simp [TextFileLoader.load, TextFileLoader.load_directory, List.foldl_append,
      List.foldl_cons, h1', h2']

def mdFile : SimFile := ⟨['a', '.', 'm', 'd'], ['x'], []⟩

theorem C9_unsupported_extension_witness :
    List.isSuffixOf txtExt mdFile.name = false ∧
    List.isSuffixOf pdfExt mdFile.name = false ∧
    ((∀ docs, TextFileLoader.load (PathInfo.file mdFile) docs =
        Except.error "Provided file is neither a .txt nor .pdf file.") ∧
      (∀ files1 files2 docs,
        TextFileLoader.load (PathInfo.dir (files1 ++ mdFile :: files2)) docs =
          TextFileLoader.load (PathInfo.dir (files1 ++ files2)) docs)) :=
  ⟨by decide, by decide,
    C9_unsupported_extension_asymmetry mdFile (by decide) (by decide)⟩

lemma load_pdf_file_shift (pages docs : List (List Char)) :
    TextFileLoader.load_pdf_file pages docs =
      docs ++ TextFileLoader.load_pdf_file pages [] := by
  unfold TextFileLoader.load_pdf_file
  by_cases hc : pyStrip (pages.foldl (fun acc page => acc ++ page ++ ['\n']) []) ≠ []
  · rw [if_pos hc, if_pos hc]
    simp
  · rw [if_neg hc, if_neg hc]
    simp

lemma load_directory_cons (f : SimFile) (fs : List SimFile) (docs : List (List Char)) :
    TextFileLoader.load_directory (f :: fs) docs =
      TextFileLoader.load_directory fs
        (if List.isSuffixOf txtExt f.name then docs ++ [f.textContent]
         else if List.isSuffixOf pdfExt f.name then
           docs ++ TextFileLoader.load_pdf_file f.pdfPages []
         else docs) := rfl

lemma load_directory_shift :
    ∀ (files : List SimFile) (docs : List (List Char)),
      TextFileLoader.load_directory files docs =
        docs ++ TextFileLoader.load_directory files [] := by
  intro files
  induction files with
  | nil =>
      intro docs
      simp [TextFileLoader.load_directory]
  | cons f fs ih =>
      intro docs
      rw [load_directory_cons, load_directory_cons]
      by_cases h1 : List.isSuffixOf txtExt f.name = true
      · rw [if_pos h1, if_pos h1, ih (docs ++ [f.textContent]),
          ih ([] ++ [f.textContent])]
        simp
      · rw [if_neg h1, if_neg h1]
        by_cases h2 : List.isSuffixOf pdfExt f.name = true
        · rw [if_pos h2, if_pos h2,
            ih (docs ++ TextFileLoader.load_pdf_file f.pdfPages []),
            ih ([] ++ TextFileLoader.load_pdf_file f.pdfPages [])]
          simp
        · rw [if_neg h2, if_neg h2, ih docs]

lemma load_shift (p : PathInfo) (docs : List (List Char)) :
    TextFileLoader.load p docs =
      (TextFileLoader.load p []).map (fun d => docs ++ d) := by
  cases p with
  | dir files =>
      simp only [TextFileLoader.load, Except.map]
      rw [load_directory_shift]
  | file f =>
      cases h1 : List.isSuffixOf txtExt f.name <;>
        cases h2 : List.isSuffixOf pdfExt f.name <;>
          simp [TextFileLoader.load, h1, h2, Except.map, load_pdf_file_shift f.pdfPages docs]
  | missing =>
      simp [TextFileLoader.load, Except.map]

/-- C10: a successful load only appends to the accumulated documents, and a
second `load_documents` call on the same state returns the first call's
documents followed by a second copy of the newly loaded documents. -/
theorem C10_load_append_only (p : PathInfo) (docs res : List (List Char))
    (h : TextFileLoader.load_documents p docs = Except.ok res) :
    ∃ tail, res = docs ++ tail ∧
      TextFileLoader.load_documents p res = Except.ok (res ++ tail) := by
  unfold TextFileLoader.load_documents at h ⊢
  rw [load_shift p docs] at h
  cases h0 : TextFileLoader.load p [] with
  | error e =>
      rw [h0] at h
      simp [Except.map] at h
  | ok tail =>
      rw [h0] at h
      simp only [Except.map, Except.ok.injEq] at h
      subst h
      refine ⟨tail, rfl, ?_⟩
      rw [load_shift p (docs ++ tail), h0]
      simp [Except.map, List.append_assoc]

def aTxtFile : SimFile := ⟨['a', '.', 't', 'x', 't'], ['h', 'i'], []⟩

theorem C10_load_append_only_witness :
    TextFileLoader.load_documents (PathInfo.file aTxtFile) [] = Except.ok [['h', 'i']] ∧
    ∃ tail, [['h', 'i']] = ([] : List (List Char)) ++ tail ∧
      TextFileLoader.load_documents (PathInfo.file aTxtFile) [['h', 'i']] =
        Except.ok ([['h', 'i']] ++ tail) :=
  ⟨rfl,
    C10_load_append_only (PathInfo.file aTxtFile) [] [['h', 'i']] rfl⟩
